import Mathlib

/-!
Verification development for the fluent-builder repository.

The definitions below are shallow embeddings of the Rust sources in
`crates/core/src`: pure functions are translated directly, filesystem walks
become explicit lists of file entries (in directory-iteration order),
external collaborator calls (git queries, the cargo subprocess) become
explicit parameters, and the `sha2`/`sha3` crates are modelled by concrete
SHA-256 and Keccak-256 implementations over byte lists.  Machine words are
`Nat` with explicit reduction modulo `2^32` / `2^64`.
-/

set_option maxRecDepth 1000000
set_option maxHeartbeats 1000000

namespace FluentBuilder

namespace Str

/-- Rust `str::starts_with`. -/
def startsWith (s pre : String) : Bool := pre.data.isPrefixOf s.data

/-- Rust `str::ends_with`. -/
def endsWith (s suf : String) : Bool := suf.data.reverse.isPrefixOf s.data.reverse

/-- Rust `str::to_lowercase` (ASCII). -/
def toLower (s : String) : String := String.mk (s.data.map Char.toLower)

/-- Rust `str::trim`. -/
def trim (s : String) : String :=
  String.mk (((s.data.dropWhile Char.isWhitespace).reverse.dropWhile Char.isWhitespace).reverse)

/-- Split a character list at a separator character. -/
def splitOnCharAux (c : Char) : List Char → List Char → List (List Char)
  | [], acc => [acc.reverse]
  | x :: xs, acc =>
    if x == c then acc.reverse :: splitOnCharAux c xs []
    else splitOnCharAux c xs (x :: acc)

/-- Rust `str::split` at a one-character separator. -/
def splitOnChar (c : Char) (s : String) : List String :=
  (splitOnCharAux c s.data []).map String.mk

end Str

namespace Hash

/-- Truncate to a 32-bit word. -/
def w32 (x : Nat) : Nat := x % 4294967296

/-- Right-rotate a 32-bit word. -/
def rotr32 (x n : Nat) : Nat := w32 (Nat.lor (Nat.shiftRight x n) (Nat.shiftLeft x (32 - n)))

def bigSigma0 (x : Nat) : Nat := Nat.xor (Nat.xor (rotr32 x 2) (rotr32 x 13)) (rotr32 x 22)

def bigSigma1 (x : Nat) : Nat := Nat.xor (Nat.xor (rotr32 x 6) (rotr32 x 11)) (rotr32 x 25)

def smallSigma0 (x : Nat) : Nat := Nat.xor (Nat.xor (rotr32 x 7) (rotr32 x 18)) (Nat.shiftRight x 3)

def smallSigma1 (x : Nat) : Nat := Nat.xor (Nat.xor (rotr32 x 17) (rotr32 x 19)) (Nat.shiftRight x 10)

def chFn (e f g : Nat) : Nat := Nat.xor (Nat.land e f) (Nat.land (Nat.xor e 4294967295) g)

def majFn (a b c : Nat) : Nat := Nat.xor (Nat.xor (Nat.land a b) (Nat.land a c)) (Nat.land b c)

/-- The 64 SHA-256 round constants. -/
def shaK : List Nat :=
  [1116352408, 1899447441, 3049323471, 3921009573, 961987163, 1508970993,
   2453635748, 2870763221, 3624381080, 310598401, 607225278, 1426881987,
   1925078388, 2162078206, 2614888103, 3248222580, 3835390401, 4022224774,
   264347078, 604807628, 770255983, 1249150122, 1555081692, 1996064986,
   2554220882, 2821834349, 2952996808, 3210313671, 3336571891, 3584528711,
   113926993, 338241895, 666307205, 773529912, 1294757372, 1396182291,
   1695183700, 1986661051, 2177026350, 2456956037, 2730485921, 2820302411,
   3259730800, 3345764771, 3516065817, 3600352804, 4094571909, 275423344,
   430227734, 506948616, 659060556, 883997877, 958139571, 1322822218,
   1537002063, 1747873779, 1955562222, 2024104815, 2227730452, 2361852424,
   2428436474, 2756734187, 3204031479, 3329325298]

/-- The SHA-256 initial hash state. -/
def sha256Init : List Nat :=
  [1779033703, 3144134277, 1013904242, 2773480762,
   1359893119, 2600822924, 528734635, 1541459225]

/-- Split a byte list into 4-byte big-endian words. -/
def bytesToWords : List Nat → List Nat
  | b0 :: b1 :: b2 :: b3 :: rest =>
    (b0 * 16777216 + b1 * 65536 + b2 * 256 + b3) :: bytesToWords rest
  | _ => []

/-- Extend a 16-word block to the 64-word message schedule. -/
def msgSchedule (block : List Nat) : List Nat :=
  (List.range 48).foldl
    (fun w _ =>
      let n := w.length
      let s0 := smallSigma0 (w.getD (n - 15) 0)
      let s1 := smallSigma1 (w.getD (n - 2) 0)
      w ++ [w32 (w.getD (n - 16) 0 + s0 + w.getD (n - 7) 0 + s1)])
    block

/-- One SHA-256 compression step over a 64-byte block. -/
def shaCompress (hs : List Nat) (block : List Nat) : List Nat :=
  let w := msgSchedule (bytesToWords block)
  let fin := (List.range 64).foldl
    (fun st i =>
      match st with
      | [a, b, c, d, e, f, g, h] =>
        let t1 := w32 (h + bigSigma1 e + chFn e f g + shaK.getD i 0 + w.getD i 0)
        let t2 := w32 (bigSigma0 a + majFn a b c)
        [w32 (t1 + t2), a, b, c, w32 (d + t1), e, f, g]
      | st => st)
    hs
  List.zipWith (fun x y => w32 (x + y)) hs fin

/-- Big-endian fixed-width byte encoding of a natural number. -/
def natToBytesBE (width x : Nat) : List Nat :=
  match width with
  | 0 => []
  | n + 1 => natToBytesBE n (Nat.shiftRight x 8) ++ [x % 256]

/-- SHA-256 padding: append 0x80, zeros, then the 64-bit big-endian bit length. -/
def shaPad (msg : List Nat) : List Nat :=
  let len := msg.length
  let zeros := (55 + 64 - len % 64) % 64
  msg ++ [0x80] ++ List.replicate zeros 0 ++ natToBytesBE 8 (len * 8)

/-- Split a byte list into 64-byte blocks (the input length is a multiple of 64). -/
def splitBlocks64 : List Nat → List Nat → List (List Nat)
  | [], acc => if acc.isEmpty then [] else [acc.reverse]
  | b :: rest, acc =>
    let acc2 := b :: acc
    if acc2.length == 64 then acc2.reverse :: splitBlocks64 rest []
    else splitBlocks64 rest acc2

/-- SHA-256 of a byte list, as 32 bytes. -/
def sha256 (msg : List Nat) : List Nat :=
  let blocks := splitBlocks64 (shaPad msg) []
  let hs := blocks.foldl shaCompress sha256Init
  hs.foldr (fun w acc => natToBytesBE 4 w ++ acc) []

/-- Lowercase hexadecimal digit. -/
def hexDigit (n : Nat) : Char :=
  if n < 10 then Char.ofNat (48 + n) else Char.ofNat (87 + n)

/-- Lowercase hex encoding of a byte list (the `{:x}` format of the Rust digests). -/
def bytesToHex (bs : List Nat) : String :=
  String.mk (bs.foldr (fun b acc => hexDigit (b / 16) :: hexDigit (b % 16) :: acc) [])

/-- Bytes of an ASCII string (UTF-8 agrees with code points on ASCII). -/
def strBytes (s : String) : List Nat := s.data.map Char.toNat

/-- Truncate to a 64-bit word. -/
def w64 (x : Nat) : Nat := x % 18446744073709551616

def mask64 : Nat := 18446744073709551615

/-- Left-rotate a 64-bit word. -/
def rotl64 (x n : Nat) : Nat := w64 (Nat.lor (Nat.shiftLeft x n) (Nat.shiftRight x (64 - n)))

/-- The 24 Keccak-f[1600] round constants. -/
def keccakRC : List Nat :=
  [1, 32898, 9223372036854808714, 9223372039002292224,
   32907, 2147483649, 9223372039002292353, 9223372036854808585,
   138, 136, 2147516425, 2147483658,
   2147516555, 9223372036854775947, 9223372036854808713, 9223372036854808579,
   9223372036854808578, 9223372036854775936, 32778, 9223372039002259466,
   9223372039002292353, 9223372036854808704, 2147483649, 9223372039002292232]

/-- Rho rotation offsets, indexed by lane `x + 5*y`, one sublist per row `y`. -/
def rhoOffsets : List Nat :=
  [0, 1, 62, 28, 27] ++ [36, 44, 6, 55, 20] ++ [3, 10, 43, 25, 39] ++
    [41, 45, 15, 21, 8] ++ [18, 2, 61, 56, 14]

def keccakTheta (a : List Nat) : List Nat :=
  let c := (List.range 5).map (fun x =>
    Nat.xor (a.getD x 0) (Nat.xor (a.getD (x + 5) 0)
      (Nat.xor (a.getD (x + 10) 0) (Nat.xor (a.getD (x + 15) 0) (a.getD (x + 20) 0)))))
  let d := (List.range 5).map (fun x =>
    Nat.xor (c.getD ((x + 4) % 5) 0) (rotl64 (c.getD ((x + 1) % 5) 0) 1))
  (List.range 25).map (fun i => Nat.xor (a.getD i 0) (d.getD (i % 5) 0))

def keccakRhoPi (a : List Nat) : List Nat :=
  (List.range 25).map (fun i =>
    let xp := i % 5
    let yp := i / 5
    let s := (3 * yp + xp) % 5 + 5 * xp
    rotl64 (a.getD s 0) (rhoOffsets.getD s 0))

def keccakChi (b : List Nat) : List Nat :=
  (List.range 25).map (fun i =>
    let x := i % 5
    let y := i / 5
    Nat.xor (b.getD i 0)
      (Nat.land (Nat.xor (b.getD ((x + 1) % 5 + 5 * y) 0) mask64) (b.getD ((x + 2) % 5 + 5 * y) 0)))

def keccakRound (a : List Nat) (rc : Nat) : List Nat :=
  let c := keccakChi (keccakRhoPi (keccakTheta a))
  Nat.xor (c.getD 0 0) rc :: c.drop 1

/-- The Keccak-f[1600] permutation on 25 lanes. -/
def keccakF (a : List Nat) : List Nat := keccakRC.foldl keccakRound a

/-- Keccak padding (0x01 domain byte, 0x80 final bit) to 136-byte blocks. -/
def keccakPad (msg : List Nat) : List Nat :=
  let q := 136 - msg.length % 136
  if q == 1 then msg ++ [0x81]
  else msg ++ [0x01] ++ List.replicate (q - 2) 0 ++ [0x80]

/-- Little-endian bytes to 64-bit lanes. -/
def bytesToLanes : List Nat → List Nat
  | b0 :: b1 :: b2 :: b3 :: b4 :: b5 :: b6 :: b7 :: rest =>
    (b0 + 256 * (b1 + 256 * (b2 + 256 * (b3 + 256 * (b4 + 256 * (b5 + 256 * (b6 + 256 * b7))))))) ::
      bytesToLanes rest
  | _ => []

/-- Little-endian fixed-width byte decomposition of a lane. -/
def laneToBytesLE (width x : Nat) : List Nat :=
  match width with
  | 0 => []
  | n + 1 => x % 256 :: laneToBytesLE n (Nat.shiftRight x 8)

/-- Split padded bytes into 136-byte blocks. -/
def keccakBlocks : List Nat → List Nat → List (List Nat)
  | [], acc => if acc.isEmpty then [] else [acc.reverse]
  | b :: rest, acc =>
    let acc2 := b :: acc
    if acc2.length == 136 then acc2.reverse :: keccakBlocks rest []
    else keccakBlocks rest acc2

def keccakAbsorb (st : List Nat) (block : List Nat) : List Nat :=
  let lanes := bytesToLanes block ++ List.replicate 8 0
  keccakF (List.zipWith Nat.xor st lanes)

/-- Keccak-256 of a byte list, as 32 bytes (the `sha3::Keccak256` digest). -/
def keccak256 (msg : List Nat) : List Nat :=
  let blocks := keccakBlocks (keccakPad msg) []
  let st := blocks.foldl keccakAbsorb (List.replicate 25 0)
  (st.take 4).foldr (fun lane acc => laneToBytesLE 8 lane ++ acc) []

end Hash

namespace Builder

/-- A file met during the `WalkDir` traversal: its path relative to the project
root and its byte content.  The list order of a walk is the directory-iteration
order, which `WalkDir` does not sort. -/
structure FileEntry where
  path : String
  content : List Nat
deriving DecidableEq

/-- From `calculate_source_hash` in `builder.rs`: extensions of files included
in the source hash. -/
def INCLUDE_EXTENSIONS : List String := ["rs"]

/-- From `calculate_source_hash` in `builder.rs`: file names included in the
source hash. -/
def INCLUDE_FILES : List String :=
  ["Cargo.toml", "Cargo.lock", "rust-toolchain.toml", "rust-toolchain"]

def pathComponents (p : String) : List String := Str.splitOnChar '/' p

def fileName (p : String) : String := (pathComponents p).getLastD ""

/-- Rust `Path::extension`: the part after the last dot of the file name;
none when there is no dot, or when the only dot is the leading one of a
hidden file. -/
def fileExtension (name : String) : Option String :=
  match Str.splitOnChar '.' name with
  | [] => none
  | [_] => none
  | ps => if Str.startsWith name "." && ps.length == 2 then none else some (ps.getLastD "")

/-- From `should_skip_path` in `builder.rs`: skip build outputs and hidden
directories. -/
def should_skip_path (p : String) : Bool :=
  (pathComponents p).any (fun s => s == "target" || s == "out" || Str.startsWith s ".")

/-- Inclusion test of `calculate_source_hash` in `builder.rs`: a `.rs`
extension or one of the fixed manifest and toolchain file names. -/
def should_include_file (p : String) : Bool :=
  (match fileExtension (fileName p) with
   | some ext => INCLUDE_EXTENSIONS.contains ext
   | none => false)
  || INCLUDE_FILES.contains (fileName p)

/-- From `calculate_source_hash` in `builder.rs` (the walk in `compiler.rs`
filters the same way up to the file-name list): fold the contents of the
included files into one SHA-256 hasher, in the iteration order of the walk,
and return the lowercase hex digest.  No sorting step exists in the source. -/
def calculate_source_hash (walk : List FileEntry) : String :=
  let included := walk.filter (fun f => !should_skip_path f.path && should_include_file f.path)
  Hash.bytesToHex (Hash.sha256 (included.foldl (fun acc f => acc ++ f.content) []))

/-- From `git.rs`: the repository status report. -/
structure GitInfo where
  remote_url : String
  commit_hash : String
  commit_hash_short : String
  branch : String
  is_dirty : Bool
  dirty_files_count : Nat
deriving DecidableEq

/-- From `artifacts/metadata.rs` (as used by `builder.rs`): the source
provenance recorded in the metadata document. -/
inductive Source where
  | Git (repository : String) (commit : String) (project_path : String)
  | Archive (archive_path : String) (project_path : String)
deriving DecidableEq

/-- From `determine_source_type` in `builder.rs`.  The external call
`get_project_path_in_repo` (a git subprocess) is passed in as
`project_path_in_repo`; the source applies `unwrap_or_else` with `"."`. -/
def determine_source_type (project_path_in_repo : Except Unit String)
    (git_info : Option GitInfo) : Source :=
  match git_info with
  | some git =>
    if !git.is_dirty then
      let project_path := match project_path_in_repo with
        | .ok p => p
        | .error _ => "."
      Source.Git git.remote_url git.commit_hash project_path
    else Source.Archive "./source.tar.gz" "."
  | none => Source.Archive "./source.tar.gz" "."

/-- Errors of toolchain resolution in `builder.rs`, one per `eyre::eyre!`
site of `read_rust_toolchain_version` and `validate_rust_version`. -/
inductive ToolchainError where
  | missingChannel
  | emptyChannel
  | nonReproducibleToolchain
  | noToolchainFile
deriving DecidableEq

/-- From `validate_rust_version` in `builder.rs`: reject the empty channel and
the floating channel names. -/
def validate_rust_version (channel : String) : Except ToolchainError Unit :=
  if channel.isEmpty then .error .emptyChannel
  else if ["stable", "beta", "nightly"].contains channel then
    .error .nonReproducibleToolchain
  else .ok ()

/-- From `read_rust_toolchain_version` in `builder.rs`.  The filesystem reads
are passed in: `toolchainTomlChannel` is `some c` when `rust-toolchain.toml`
exists and its parsed `[toolchain].channel` is `c` (`none` inside when the key
is missing); `legacyContent` is the raw content of the legacy `rust-toolchain`
file when it exists. -/
def read_rust_toolchain_version (toolchainTomlChannel : Option (Option String))
    (legacyContent : Option String) : Except ToolchainError String :=
  match toolchainTomlChannel with
  | some chOpt =>
    match chOpt with
    | none => .error .missingChannel
    | some channel =>
      match validate_rust_version channel with
      | .error e => .error e
      | .ok _ => .ok channel
  | none =>
    match legacyContent with
    | some content =>
      let channel := Str.trim content
      match validate_rust_version channel with
      | .error e => .error e
      | .ok _ => .ok channel
    | none => .error .noToolchainFile

end Builder

namespace Config

/-- From `config.rs`: artifact generation toggles. -/
structure ArtifactsConfig where
  generate_interface : Bool
  generate_abi : Bool
  generate_metadata : Bool
  pretty_json : Bool
deriving DecidableEq

/-- From `config.rs`: the build profile. -/
inductive BuildProfile where
  | Debug
  | Release
  | Custom (name : String)
deriving DecidableEq

/-- From `config.rs`: the compilation configuration. -/
structure CompileConfig where
  project_root : String
  output_dir : String
  profile : BuildProfile
  features : List String
  no_default_features : Bool
  locked : Bool
  artifacts : ArtifactsConfig
deriving DecidableEq

/-- A filesystem, as the set of existing paths. -/
def pathExists (fs : List String) (p : String) : Bool := fs.contains p

def joinPath (a b : String) : String := a ++ "/" ++ b

/-- From `CompileConfig::validate` in `config.rs`, verbatim: the body's call
to `validate_project_root` is commented out in the source, so validation
always succeeds, whatever the filesystem contains. -/
def validate (_cfg : CompileConfig) (_fs : List String) : Except String Unit :=
  .ok ()

/-- From `CompileConfig::validate_project_root` in `config.rs` (carrying the
`#[allow(dead_code)]` attribute there): the check `validate` was documented to
perform. -/
def validate_project_root (cfg : CompileConfig) (fs : List String) : Except String Unit :=
  if !pathExists fs cfg.project_root then
    .error ("Project root does not exist: " ++ cfg.project_root)
  else if !pathExists fs (joinPath cfg.project_root "Cargo.toml") then
    .error ("No Cargo.toml found in project root: " ++ cfg.project_root)
  else .ok ()

end Config

namespace Verify

/-- From `normalize_hash` in `verify.rs`, verbatim: `strip_prefix` applies to
the trimmed string, but its `unwrap_or(hash)` fallback is the ORIGINAL
untrimmed argument, so the trim only survives on the prefixed path. -/
def normalize_hash (hash : String) : String :=
  let t := Str.trim hash
  if Str.startsWith t "0x" then Str.toLower (t.drop 2) else Str.toLower hash

/-- From `calculate_bytecode_hash` in `verify.rs`: lowercase hex SHA-256. -/
def calculate_bytecode_hash (bytecode : List Nat) : String :=
  Hash.bytesToHex (Hash.sha256 bytecode)

/-- From `verify.rs`: the fields of `VerifyConfig` the engine itself reads
(the override and metadata fields only feed `build_compile_config`, which is
passed in as a result below). -/
structure VerifyConfig where
  project_root : String
  deployed_bytecode_hash : String
deriving DecidableEq

/-- From `verify.rs`: the verification status. -/
inductive VerificationStatus where
  | Success
  | BytecodeMismatch
  | CompilationFailed
  | InvalidConfig
deriving DecidableEq

/-- From `verify.rs`: the detailed verification information. -/
structure VerificationDetails where
  expected_hash : String
  actual_hash : Option String
  compiler_version : Option String
  sdk_version : Option String
  build_profile : Option String
  error_message : Option String
  compilation_duration_ms : Option Nat
  timestamp : Nat
deriving DecidableEq

/-- The data the engine reads out of a successful `compile` call: contract
info, build metadata and the rWASM bytes. -/
structure CompileOk where
  contract_name : String
  rustc_version : String
  profile : String
  sdk_version : Option String
  rwasm : List Nat
deriving DecidableEq

/-- From `verify.rs`: the verification outcome record. -/
structure VerificationResult where
  status : VerificationStatus
  contract_name : String
  details : VerificationDetails
  compilation_result : Option CompileOk
deriving DecidableEq

/-- From `verify_contract` in `verify.rs`.  The two collaborator calls are
passed in as results: `configResult` is `build_compile_config(&config)` and
`compileResult` is `compile(&compile_config)`.  `timestamp` is the Unix time
read at entry; `elapsedMs` is the wall-clock reading the source takes at each
`Some(start_time.elapsed().as_millis())` site.  The Rust function wraps every
path below in `Ok(...)`; the embedding returns the record directly. -/
def verify_contract (cfg : VerifyConfig) (timestamp elapsedMs : Nat)
    (configResult : Except String Config.CompileConfig)
    (compileResult : Except String CompileOk) : VerificationResult :=
  match configResult with
  | .error e =>
    { status := .InvalidConfig
      contract_name := ""
      details :=
        { expected_hash := cfg.deployed_bytecode_hash
          actual_hash := none
          compiler_version := none
          sdk_version := none
          build_profile := none
          error_message := some ("Invalid configuration: " ++ e)
          compilation_duration_ms := none
          timestamp := timestamp }
      compilation_result := none }
  | .ok _ =>
    match compileResult with
    | .error e =>
      { status := .CompilationFailed
        contract_name := ""
        details :=
          { expected_hash := cfg.deployed_bytecode_hash
            actual_hash := none
            compiler_version := none
            sdk_version := none
            build_profile := none
            error_message := some ("Compilation failed: " ++ e)
            compilation_duration_ms := some elapsedMs
            timestamp := timestamp }
        compilation_result := none }
    | .ok out =>
      let compiled_hash := calculate_bytecode_hash out.rwasm
      let expected_hash := normalize_hash cfg.deployed_bytecode_hash
      let actual_hash := normalize_hash compiled_hash
      let statusErr : VerificationStatus × Option String :=
        if expected_hash = actual_hash then (.Success, none)
        else (.BytecodeMismatch,
          some ("Bytecode mismatch: expected " ++ expected_hash ++ ", got " ++ actual_hash))
      { status := statusErr.1
        contract_name := out.contract_name
        details :=
          { expected_hash := expected_hash
            actual_hash := some actual_hash
            compiler_version := some out.rustc_version
            sdk_version := out.sdk_version
            build_profile := some out.profile
            error_message := statusErr.2
            compilation_duration_ms := some elapsedMs
            timestamp := timestamp }
        compilation_result := some out }

end Verify

namespace Artifacts

/-- A JSON ABI parameter, restricted to the fields the artifact code reads:
`name`, `type`, `internalType` and `components`.  A `none` field models a
missing JSON key. -/
inductive AbiParam : Type where
  | mk (name ty internalType : Option String) (components : Option (List AbiParam))

def AbiParam.name : AbiParam → Option String
  | .mk n _ _ _ => n

def AbiParam.ty : AbiParam → Option String
  | .mk _ t _ _ => t

def AbiParam.internalType : AbiParam → Option String
  | .mk _ _ it _ => it

def AbiParam.components : AbiParam → Option (List AbiParam)
  | .mk _ _ _ c => c

/-- A JSON ABI entry, restricted to the fields the artifact code reads. -/
structure AbiEntry where
  ty : Option String
  name : Option String
  inputs : Option (List AbiParam)
  outputs : Option (List AbiParam)
  stateMutability : Option String

/-- Rust `BTreeMap::insert` on a key-sorted association list. -/
def btreeInsert (m : List (String × String)) (k v : String) : List (String × String) :=
  match m with
  | [] => [(k, v)]
  | (k0, v0) :: rest =>
    if k = k0 then (k, v) :: rest
    else if k < k0 then (k, v) :: (k0, v0) :: rest
    else (k0, v0) :: btreeInsert rest k v

/-- The 4-byte selector of a canonical signature: first four Keccak-256 bytes,
hex-encoded (shared by `metadata.rs` and `artifacts/mod.rs`). -/
def selectorHex (signature : String) : String :=
  Hash.bytesToHex ((Hash.keccak256 (Hash.strBytes signature)).take 4)

namespace Metadata

/-- From `extract_method_identifiers` in `artifacts/metadata.rs`: for each
ABI function entry, join the input types with commas, form
`name(type,...)`, Keccak-256 it, and record the hex of the first 4 bytes. -/
def extract_method_identifiers (abi : List AbiEntry) : List (String × String) :=
  abi.foldl
    (fun identifiers func =>
      if func.ty == some "function" then
        match func.name with
        | some name =>
          let types := (func.inputs.getD []).filterMap (fun i => i.ty)
          let signature := name ++ "(" ++ String.intercalate "," types ++ ")"
          btreeInsert identifiers signature (selectorHex signature)
        | none => identifiers
      else identifiers)
    []

end Metadata

/-- From `extract_function_selectors` in `artifacts/mod.rs`: identical to
`extract_method_identifiers` except the selector is stored `0x`-prefixed. -/
def extract_function_selectors (abi : List AbiEntry) : List (String × String) :=
  abi.foldl
    (fun selectors func =>
      if func.ty == some "function" then
        match func.name with
        | some name =>
          let types := (func.inputs.getD []).filterMap (fun i => i.ty)
          let signature := name ++ "(" ++ String.intercalate "," types ++ ")"
          btreeInsert selectors signature ("0x" ++ selectorHex signature)
        | none => selectors
      else selectors)
    []

namespace Abi

/-- The external `FunctionABI` of a parsed method signature: all the ABI
generator does with it is call `to_json_value()`. -/
structure FunctionABI where
  to_json_value : Except String AbiEntry

/-- An external router method: all the ABI generator does with it is call
`parsed_signature().function_abi()`. -/
structure RouterMethod where
  function_abi : Except String FunctionABI

/-- An external `Router`: a list of available methods. -/
structure Router where
  available_methods : List RouterMethod

/-- The loop body of `generate` in `artifacts/abi.rs`: push the JSON value of
a method whose two conversions succeed, silently skip it otherwise. -/
def pushConverted (entries : List AbiEntry) (method : RouterMethod) : List AbiEntry :=
  match method.function_abi with
  | .ok fa =>
    match fa.to_json_value with
    | .ok json => entries ++ [json]
    | .error _ => entries
  | .error _ => entries

/-- From `generate` in `artifacts/abi.rs`, verbatim: an empty router list
yields an empty ABI; otherwise ONLY the first router is read (the source
comment says "Take first router for now"), and a method is silently skipped
when `function_abi()` or `to_json_value()` fails. -/
def generate (routers : List Router) : Except String (List AbiEntry) :=
  if routers.isEmpty then .ok []
  else
    let router := routers.headD ⟨[]⟩
    .ok (router.available_methods.foldl pushConverted [])

/-- The methods of a router that convert successfully, in order: the
descriptors `generate` emits for the router it reads. -/
def convertedMethods (methods : List RouterMethod) : List AbiEntry :=
  methods.filterMap (fun method =>
    match method.function_abi with
    | .ok fa => fa.to_json_value.toOption
    | .error _ => none)

end Abi

namespace Interface

/-- Strip the `"struct "` tag of an internal type. -/
def dropStructTag (s : String) : Option String :=
  if Str.startsWith s "struct " then some (s.drop 7) else none

/-- Strip a trailing `"[]"` of an array type. -/
def stripArrayBrackets (s : String) : Option String :=
  if Str.endsWith s "[]" then some (s.dropRight 2) else none

/-- From `format_sol_type` in `artifacts/interface.rs`, on a parameter rebuilt
as `json!({"type": base})` — such a parameter has no internal type and no
components, so only the tuple and array branches act.  The source recursion
strictly shortens the type string by two characters; the fuel argument (called
with the string length) makes that recursion structural. -/
def format_bare_type (fuel : Nat) (ty : String) : String :=
  match fuel with
  | 0 => ty
  | fuel + 1 =>
    if ty == "tuple" then "tuple"
    else
      match stripArrayBrackets ty with
      | some base => format_bare_type fuel base ++ "[]"
      | none => ty

mutual

/-- From `format_sol_type` in `artifacts/interface.rs`: named structs keep
their stripped internal type, anonymous tuples render their component types
in parentheses, arrays recurse into the base type, primitives pass through. -/
def format_sol_type : AbiParam → String
  | .mk _ t it cs =>
    let param_type := t.getD "unknown"
    if param_type == "tuple" then
      match (match it with | some internal => dropStructTag internal | none => none) with
      | some stripped => stripped
      | none =>
        match cs with
        | some components =>
          "(" ++ String.intercalate "," (format_sol_type_list components) ++ ")"
        | none => "tuple"
    else
      match stripArrayBrackets param_type with
      | some base => format_bare_type base.length base ++ "[]"
      | none => param_type

def format_sol_type_list : List AbiParam → List String
  | [] => []
  | p :: ps => format_sol_type p :: format_sol_type_list ps

end

/-- From `artifacts/interface.rs`: the reference data location of a rendered
parameter. -/
inductive DataLocation where
  | Memory
  | Calldata
deriving DecidableEq

/-- From `get_data_location` in `artifacts/interface.rs`: struct internal
types get `memory`, the dynamic `string`/`bytes` primitives get `calldata`,
`[]`-suffixed arrays and parenthesised tuples get `memory`, everything else
gets no qualifier. -/
def get_data_location (ty : String) (internalType : Option String) : Option DataLocation :=
  if (match internalType with | some t => Str.startsWith t "struct " | none => false) then
    some .Memory
  else if ty == "string" || ty == "bytes" then some .Calldata
  else if Str.endsWith ty "[]" then some .Memory
  else if Str.startsWith ty "(" && Str.endsWith ty ")" then some .Memory
  else none

/-- From `format_parameter` in `artifacts/interface.rs`. -/
def format_parameter (p : AbiParam) : String :=
  let name := p.name.getD ""
  let ty :=
    match p.internalType with
    | some internal =>
      match dropStructTag internal with
      | some structName => structName
      | none => format_sol_type p
    | none => format_sol_type p
  let location_str :=
    match get_data_location ty p.internalType with
    | some .Memory => " memory"
    | some .Calldata => " calldata"
    | none => ""
  if name.isEmpty then ty ++ location_str
  else ty ++ location_str ++ " " ++ name

/-- One rendered struct field line of `collect_structs`. -/
def structFieldText (f : AbiParam) : String :=
  "        " ++ format_sol_type f ++ " " ++ f.name.getD "_" ++ ";"

/-- The struct declaration text `collect_structs` pushes. -/
def mkStructText (structName fields : String) : String :=
  "    struct " ++ structName ++ " \x7b\n" ++ fields ++ "\n    \x7d"

mutual

/-- From `collect_structs` in `artifacts/interface.rs`.  The `seen` hash set
becomes a membership list; the `structs` vector holds each pushed declaration
string paired with the struct name it declares (the source pushes only the
string — the name is kept alongside for specification). -/
def collect_structs : List AbiParam → List String → List (String × String) →
    List String × List (String × String)
  | [], seen, structs => (seen, structs)
  | p :: ps, seen, structs =>
    let r := collect_structs_param p seen structs
    collect_structs ps r.1 r.2

/-- The body of the `collect_structs` loop for one parameter: the
`param["type"] == "tuple"` branch, the `ends_with("[]")` branch, or no
action. -/
def collect_structs_param : AbiParam → List String → List (String × String) →
    List String × List (String × String)
  | .mk _ t it cs, seen, structs =>
    if t == some "tuple" then collect_structs_tuple it cs seen structs
    else if (match t with | some ts => Str.endsWith ts "[]" | none => false) then
      collect_structs_array cs seen structs
    else (seen, structs)

/-- The tuple branch of the `collect_structs` loop: a struct-tagged internal
type not yet seen is marked seen, its declaration is pushed, and its
components are collected recursively. -/
def collect_structs_tuple : Option String → Option (List AbiParam) → List String →
    List (String × String) → List String × List (String × String)
  | some internal, cs, seen, structs =>
    (match dropStructTag internal with
     | some structName =>
       if seen.contains structName then (seen, structs)
       else
         let seen2 := structName :: seen
         match cs with
         | some components =>
           let fields := String.intercalate "\n" (components.map structFieldText)
           collect_structs components seen2
             (structs ++ [(structName, mkStructText structName fields)])
         | none => (seen2, structs)
     | none => (seen, structs))
  | none, _, seen, structs => (seen, structs)

/-- The array branch of the `collect_structs` loop: recurse into the base
components when present. -/
def collect_structs_array : Option (List AbiParam) → List String →
    List (String × String) → List String × List (String × String)
  | some components, seen, structs => collect_structs components seen structs
  | none, seen, structs => (seen, structs)

end

/-- The struct-collection step of `generate` in `artifacts/interface.rs` for
one ABI entry: inputs then outputs of a function entry. -/
def collect_entry_structs (acc : List String × List (String × String))
    (entry : AbiEntry) : List String × List (String × String) :=
  if entry.ty == some "function" then
    let acc1 :=
      match entry.inputs with
      | some inputs => collect_structs inputs acc.1 acc.2
      | none => acc
    match entry.outputs with
    | some outputs => collect_structs outputs acc1.1 acc1.2
    | none => acc1
  else acc

/-- The struct-collection pass of `generate` in `artifacts/interface.rs` over
the whole ABI. -/
def collect_abi_structs (abi : List AbiEntry) : List String × List (String × String) :=
  abi.foldl collect_entry_structs ([], [])

/-- From `format_function` in `artifacts/interface.rs`. -/
def format_function (f : AbiEntry) : String :=
  let name := f.name.getD ""
  let inputs := f.inputs.getD []
  let outputs := f.outputs.getD []
  let mutability := f.stateMutability.getD "nonpayable"
  let params := String.intercalate ", " (inputs.map format_parameter)
  let returnsTxt :=
    if outputs.isEmpty then ""
    else " returns (" ++ String.intercalate ", " (outputs.map format_parameter) ++ ")"
  let mutStr :=
    match mutability with
    | "pure" => " pure"
    | "view" => " view"
    | "payable" => " payable"
    | _ => ""
  "function " ++ name ++ "(" ++ params ++ ") external" ++ mutStr ++ returnsTxt ++ ";"

/-- The `convert_case` Pascal conversion, modelled for snake/kebab/lowercase
ASCII names (the only shape contract names take). -/
def toPascal (s : String) : String :=
  let words := (Str.splitOnChar '_' s).flatMap (fun w => Str.splitOnChar '-' w)
  String.join (words.map (fun w =>
    match w.data with
    | [] => ""
    | c :: rest => String.mk (c.toUpper :: rest.map Char.toLower)))

/-- From `generate` in `artifacts/interface.rs`: header, the de-duplicated
struct declarations, then one signature line per function.  The Rust function
returns `Result` but never errors. -/
def generate (contract_name : String) (abi : List AbiEntry) : String :=
  let header := "// SPDX-License-Identifier: MIT\n// Auto-generated from Rust source\n"
    ++ "pragma solidity ^0.8.0;\n\n"
    ++ "interface I" ++ toPascal contract_name ++ " \x7b\n"
  let struct_definitions := (collect_abi_structs abi).2
  let withStructs := struct_definitions.foldl (fun acc d => acc ++ d.2 ++ "\n\n") header
  let withFuncs := (abi.filter (fun e => e.ty == some "function")).foldl
    (fun acc f => acc ++ "    " ++ format_function f ++ "\n") withStructs
  withFuncs ++ "\x7d\n"

end Interface

end Artifacts

namespace Fixtures

/-- A walk entry `src/a.rs` with content `"a"`. -/
def fileA : Builder.FileEntry := ⟨"src/a.rs", [97]⟩

/-- A walk entry `src/b.rs` with content `"b"`. -/
def fileB : Builder.FileEntry := ⟨"src/b.rs", [98]⟩

/-- A clean repository status report. -/
def cleanGit : Builder.GitInfo :=
  ⟨"https://github.com/acme/token.git", "a1b2c3d4e5", "a1b2c3d", "main", false, 0⟩

/-- A dirty repository status report (three uncommitted files). -/
def dirtyGit : Builder.GitInfo :=
  ⟨"https://github.com/acme/token.git", "a1b2c3d4e5", "a1b2c3d", "main", true, 3⟩

/-- A build configuration whose project root exists on no filesystem used
below. -/
def badCfg : Config.CompileConfig :=
  { project_root := "/nonexistent"
    output_dir := "out"
    profile := .Release
    features := []
    no_default_features := true
    locked := false
    artifacts := ⟨true, true, true, true⟩ }

/-- A verification request against a missing project. -/
def cfgMissing : Verify.VerifyConfig := ⟨"/missing", "0xABC"⟩

/-- The ABI entry of `transfer(address to, uint256 amount)`. -/
def transferEntry : Artifacts.AbiEntry :=
  { ty := some "function"
    name := some "transfer"
    inputs := some
      [Artifacts.AbiParam.mk (some "to") (some "address") (some "address") none,
       Artifacts.AbiParam.mk (some "amount") (some "uint256") (some "uint256") none]
    outputs := some []
    stateMutability := some "nonpayable" }

/-- A `struct Point` parameter with two primitive fields. -/
def pointParam : Artifacts.AbiParam :=
  .mk (some "p") (some "tuple") (some "struct Point")
    (some [.mk (some "x") (some "uint256") (some "uint256") none,
           .mk (some "y") (some "uint256") (some "uint256") none])

/-- A function `setA` taking the `Point` struct. -/
def fnUsePointA : Artifacts.AbiEntry :=
  { ty := some "function", name := some "setA", inputs := some [pointParam]
    outputs := some [], stateMutability := some "nonpayable" }

/-- A second function `setB` taking the same `Point` struct. -/
def fnUsePointB : Artifacts.AbiEntry :=
  { ty := some "function", name := some "setB", inputs := some [pointParam]
    outputs := some [], stateMutability := some "nonpayable" }

/-- An ABI in which the same named struct is a parameter of two functions. -/
def sharedStructAbi : List Artifacts.AbiEntry := [fnUsePointA, fnUsePointB]

/-- A fixed-size-array parameter `uint256[3] a`. -/
def fixedArrayParam : Artifacts.AbiParam :=
  .mk (some "a") (some "uint256[3]") (some "uint256[3]") none

/-- An ABI function entry named `foo`, no parameters. -/
def entryFoo : Artifacts.AbiEntry :=
  { ty := some "function", name := some "foo", inputs := some []
    outputs := some [], stateMutability := some "view" }

/-- An ABI function entry named `bar`, no parameters. -/
def entryBar : Artifacts.AbiEntry :=
  { ty := some "function", name := some "bar", inputs := some []
    outputs := some [], stateMutability := some "view" }

/-- A router method whose signature converts successfully to `e`. -/
def methodOf (e : Artifacts.AbiEntry) : Artifacts.Abi.RouterMethod :=
  ⟨.ok ⟨.ok e⟩⟩

/-- A router with one convertible method `foo`. -/
def router1 : Artifacts.Abi.Router := ⟨[methodOf entryFoo]⟩

/-- A second router with one convertible method `bar`. -/
def router2 : Artifacts.Abi.Router := ⟨[methodOf entryBar]⟩

end Fixtures

/-- The de-duplication invariant of the struct collector: names of emitted
declarations are pairwise distinct, and every emitted name is in the seen
set. -/
def Artifacts.Interface.structsInv (seen : List String)
    (structs : List (String × String)) : Prop :=
  (structs.map Prod.fst).Nodup ∧ ∀ n ∈ structs.map Prod.fst, n ∈ seen

/-- Joint induction goal: the seen set only grows, and the de-duplication
invariant is preserved. -/
def Artifacts.Interface.Minv (res : List String × List (String × String))
    (seen : List String) (structs : List (String × String)) : Prop :=
  (∀ n ∈ seen, n ∈ res.1) ∧ (structsInv seen structs → structsInv res.1 res.2)

namespace Artifacts.Interface

mutual

/-- Seen-set growth and preservation of the de-duplication invariant through
`collect_structs`. -/
theorem collect_structs_inv : ∀ (ps : List Artifacts.AbiParam) (seen : List String)
    (structs : List (String × String)),
    Minv (collect_structs ps seen structs) seen structs
  | [], _, _ => ⟨fun _ h => h, fun h => h⟩
  | p :: ps, seen, structs => by
    have h2 := collect_structs_param_inv p seen structs
    have h1 := collect_structs_inv ps (collect_structs_param p seen structs).1
      (collect_structs_param p seen structs).2
    exact ⟨fun n hn => h1.1 n (h2.1 n hn), fun hInv => h1.2 (h2.2 hInv)⟩
termination_by ps _ _ => sizeOf ps

/-- Seen-set growth and invariant preservation for one parameter. -/
theorem collect_structs_param_inv : ∀ (p : Artifacts.AbiParam) (seen : List String)
    (structs : List (String × String)),
    Minv (collect_structs_param p seen structs) seen structs
  | .mk _ none _ _, _, _ => ⟨fun _ h => h, fun h => h⟩
  | .mk _ (some ts) it cs, seen, structs => by
    rw [collect_structs_param.eq_1]
    by_cases h1 : (some ts == some "tuple") = true
    · rw [if_pos h1]
      exact collect_structs_tuple_inv it cs seen structs
    · rw [if_neg h1]
      by_cases h2 : Str.endsWith ts "[]" = true
      · rw [if_pos h2]
        exact collect_structs_array_inv cs seen structs
      · rw [if_neg h2]
        exact ⟨fun _ h => h, fun h => h⟩
termination_by p _ _ => sizeOf p

/-- Seen-set growth and invariant preservation for the tuple branch. -/
theorem collect_structs_tuple_inv : ∀ (it : Option String)
    (cs : Option (List Artifacts.AbiParam)) (seen : List String)
    (structs : List (String × String)),
    Minv (collect_structs_tuple it cs seen structs) seen structs
  | none, _, _, _ => by
    rw [collect_structs_tuple.eq_2]
    exact ⟨fun _ h => h, fun h => h⟩
  | some internal, cs, seen, structs => by
    rw [collect_structs_tuple.eq_1]
    cases hdrop : dropStructTag internal with
    | none => exact ⟨fun _ h => h, fun h => h⟩
    | some structName =>
      dsimp only
      by_cases hcont : seen.contains structName = true
      · rw [if_pos hcont]
        exact ⟨fun _ h => h, fun h => h⟩
      · rw [if_neg hcont]
        have hnot : structName ∉ seen := by
          intro hmem
          exact hcont (by simpa using hmem)
        cases cs with
        | none =>
          exact ⟨fun n hn => List.mem_cons_of_mem _ hn,
            fun hInv => ⟨hInv.1, fun n hn => List.mem_cons_of_mem _ (hInv.2 n hn)⟩⟩
        | some components =>
          have ih := collect_structs_inv components (structName :: seen)
            (structs ++ [(structName,
              mkStructText structName
                (String.intercalate "\n" (components.map structFieldText)))])
          refine ⟨fun n hn => ih.1 n (List.mem_cons_of_mem _ hn), fun hInv => ?_⟩
          refine ih.2 ⟨?_, ?_⟩
          · have hdisj : structName ∉ structs.map Prod.fst :=
              fun hm => hnot (hInv.2 structName hm)
            simp [List.nodup_append, hInv.1, hdisj]
          · intro n hn
            rcases (by simpa using hn : n ∈ structs.map Prod.fst ∨ n = structName) with h | h
            · exact List.mem_cons_of_mem _ (hInv.2 n h)
            · exact h ▸ List.mem_cons_self _ _
termination_by it cs _ _ => sizeOf it + sizeOf cs

/-- Seen-set growth and invariant preservation for the array branch. -/
theorem collect_structs_array_inv : ∀ (cs : Option (List Artifacts.AbiParam))
    (seen : List String) (structs : List (String × String)),
    Minv (collect_structs_array cs seen structs) seen structs
  | none, _, _ => by
    rw [collect_structs_array.eq_2]
    exact ⟨fun _ h => h, fun h => h⟩
  | some components, seen, structs => by
    rw [collect_structs_array.eq_1]
    exact collect_structs_inv components seen structs
termination_by cs _ _ => sizeOf cs

end

/-- The per-entry struct-collection step preserves the de-duplication
invariant. -/
theorem collect_entry_structs_inv (acc : List String × List (String × String))
    (entry : Artifacts.AbiEntry) (h : structsInv acc.1 acc.2) :
    structsInv (collect_entry_structs acc entry).1 (collect_entry_structs acc entry).2 := by
  unfold collect_entry_structs
  by_cases he : (entry.ty == some "function") = true
  · simp only [he, if_true]
    have step1 : structsInv
        (match entry.inputs with
         | some inputs => collect_structs inputs acc.1 acc.2
         | none => acc).1
        (match entry.inputs with
         | some inputs => collect_structs inputs acc.1 acc.2
         | none => acc).2 := by
      cases entry.inputs with
      | none => exact h
      | some inputs => exact (collect_structs_inv inputs acc.1 acc.2).2 h
    cases entry.outputs with
    | none => simpa using step1
    | some outputs => simpa using (collect_structs_inv outputs _ _).2 step1
  · simpa [he] using h

/-- The struct declarations collected over a whole ABI carry pairwise-distinct
struct names: each struct is declared at most once. -/
theorem collect_abi_structs_nodup (abi : List Artifacts.AbiEntry) :
    ((collect_abi_structs abi).2.map Prod.fst).Nodup := by
  suffices h : ∀ (l : List Artifacts.AbiEntry) (acc : List String × List (String × String)),
      structsInv acc.1 acc.2 →
      structsInv (l.foldl collect_entry_structs acc).1 (l.foldl collect_entry_structs acc).2 by
    exact (h abi ([], []) ⟨List.nodup_nil, by simp⟩).1
  intro l
  induction l with
  | nil => intro acc h; simpa using h
  | cons e es ih =>
    intro acc h
    exact ih _ (collect_entry_structs_inv acc e h)

/-- The qualifier rule of `get_data_location`: some location is returned
exactly for struct-tagged internal types, the dynamic `string`/`bytes`
primitives, `[]`-suffixed (dynamic) arrays, and parenthesised tuples. -/
theorem get_data_location_isSome (ty : String) (it : Option String) :
    (get_data_location ty it).isSome =
      ((match it with | some t => Str.startsWith t "struct " | none => false) ||
       (ty == "string" || ty == "bytes") || Str.endsWith ty "[]" ||
       (Str.startsWith ty "(" && Str.endsWith ty ")")) := by
  unfold get_data_location
  split_ifs with h1 h2 h3 h4 <;> simp_all

end Artifacts.Interface

namespace Artifacts.Abi

/-- Folding the push step of `generate` appends exactly the successfully
converted methods, in order. -/
theorem pushConverted_foldl (ms : List RouterMethod) (acc : List Artifacts.AbiEntry) :
    ms.foldl pushConverted acc = acc ++ convertedMethods ms := by
  induction ms generalizing acc with
  | nil => simp [convertedMethods]
  | cons m ms ih =>
    obtain ⟨fa⟩ := m
    cases fa with
    | error e =>
      simp [pushConverted, convertedMethods, List.filterMap_cons, ih]
    | ok f =>
      obtain ⟨j⟩ := f
      cases j with
      | error e =>
        simp [pushConverted, convertedMethods, List.filterMap_cons, Except.toOption, ih]
      | ok v =>
        simp [pushConverted, convertedMethods, List.filterMap_cons, Except.toOption, ih]

end Artifacts.Abi

/-- Claim C1 (code_bug): the spec says the fingerprinted files are collected
into a set sorted by relative path before being folded into the SHA-256
hasher, making the source tree hash independent of directory-iteration order.
The code (`calculate_source_hash` in `builder.rs`, and likewise in
`compiler.rs`) has no sorting step: it folds file contents in walk order, so
the same two files presented in the two iteration orders — a permutation of
the identical file set — produce different hashes. -/
theorem c1_source_hash_depends_on_iteration_order :
    [Fixtures.fileA, Fixtures.fileB].Perm [Fixtures.fileB, Fixtures.fileA] ∧
    Builder.calculate_source_hash [Fixtures.fileA, Fixtures.fileB] ≠
      Builder.calculate_source_hash [Fixtures.fileB, Fixtures.fileA] := by
  constructor
  · decide
  · decide

/-- Claim C2 counterexample: building provenance from a dirty status report
does not fail — `determine_source_type` silently degrades to Archive
provenance (it is a total function with no error path). -/
theorem c2_dirty_status_yields_archive_not_failure :
    Builder.determine_source_type (.ok "contracts/token") (some Fixtures.dirtyGit) =
      Builder.Source.Archive "./source.tar.gz" "." ∧
    Builder.determine_source_type (.ok "contracts/token") (some Fixtures.dirtyGit) ≠
      Builder.Source.Git "https://github.com/acme/token.git" "a1b2c3d4e5" "contracts/token" :=
  ⟨rfl, by decide⟩

/-- Claim C2 (amended): Git provenance is produced exactly when the status
report is clean, and then carries the reported commit; a dirty report makes
`determine_source_type` fall back to Archive provenance instead of failing. -/
theorem c2_git_provenance_iff_clean (pp : Except Unit String) (git : Builder.GitInfo) :
    (git.is_dirty = false →
      Builder.determine_source_type pp (some git) =
        Builder.Source.Git git.remote_url git.commit_hash
          (match pp with | .ok p => p | .error _ => ".")) ∧
    (git.is_dirty = true →
      Builder.determine_source_type pp (some git) =
        Builder.Source.Archive "./source.tar.gz" ".") := by
  obtain ⟨r, ch, chs, br, d, n⟩ := git
  cases d with
  | false => exact ⟨fun _ => rfl, fun h => Bool.noConfusion h⟩
  | true => exact ⟨fun h => Bool.noConfusion h, fun _ => rfl⟩

/-- Claim C2 witness: the theorem applied to a concrete clean and a concrete
dirty status report. -/
theorem c2_git_provenance_iff_clean_witness :
    Builder.determine_source_type (.ok "contracts/token") (some Fixtures.cleanGit) =
      Builder.Source.Git "https://github.com/acme/token.git" "a1b2c3d4e5" "contracts/token" ∧
    Builder.determine_source_type (.ok "contracts/token") (some Fixtures.dirtyGit) =
      Builder.Source.Archive "./source.tar.gz" "." :=
  ⟨(c2_git_provenance_iff_clean (.ok "contracts/token") Fixtures.cleanGit).1 rfl,
   (c2_git_provenance_iff_clean (.ok "contracts/token") Fixtures.dirtyGit).2 rfl⟩

/-- Claim C3: toolchain resolution rejects the floating channels `stable`,
`beta` and `nightly` with the non-reproducible-toolchain error, and accepts
the pinned versions `1.83.0` and `nightly-2024-01-15`, returning them. -/
theorem c3_toolchain_pin_gate :
    Builder.read_rust_toolchain_version (some (some "stable")) none =
      .error .nonReproducibleToolchain ∧
    Builder.read_rust_toolchain_version (some (some "beta")) none =
      .error .nonReproducibleToolchain ∧
    Builder.read_rust_toolchain_version (some (some "nightly")) none =
      .error .nonReproducibleToolchain ∧
    Builder.read_rust_toolchain_version (some (some "1.83.0")) none = .ok "1.83.0" ∧
    Builder.read_rust_toolchain_version (some (some "nightly-2024-01-15")) none =
      .ok "nightly-2024-01-15" ∧
    Builder.read_rust_toolchain_version none (some "stable\n") =
      .error .nonReproducibleToolchain ∧
    Builder.read_rust_toolchain_version none (some "1.83.0\n") = .ok "1.83.0" :=
  ⟨rfl, rfl, rfl, rfl, rfl, rfl, rfl⟩

/-- Claim C4 (code_bug): the spec requires a configuration error when the
project root does not exist or lacks `Cargo.toml`; in the code the call to
`validate_project_root` inside `CompileConfig::validate` is commented out, so
`validate` succeeds unconditionally — while the disabled dead-code check would
have reported the error. -/
theorem c4_validate_check_disabled :
    (∀ (cfg : Config.CompileConfig) (fs : List String), Config.validate cfg fs = .ok ()) ∧
    Config.validate_project_root Fixtures.badCfg [] =
      .error "Project root does not exist: /nonexistent" ∧
    Config.validate Fixtures.badCfg [] = .ok () :=
  ⟨fun _ _ => rfl, rfl, rfl⟩

/-- Claim C5: the verification engine classifies every run into exactly one
terminal outcome — a config-building failure gives `InvalidConfig` with no
actual hash and a populated error message; a compile failure gives
`CompilationFailed` likewise; on compile success both hashes are normalized
and compared, giving `Success` on equality and otherwise `BytecodeMismatch`
with both the (normalized) expected and actual hashes recorded and an error
message populated exactly in the mismatch case. -/
theorem c5_verify_outcome_classification (cfg : Verify.VerifyConfig) (ts ms : Nat)
    (e1 e2 : String) (c : Config.CompileConfig) (out : Verify.CompileOk)
    (pr : Except String Verify.CompileOk) :
    ((Verify.verify_contract cfg ts ms (.error e1) pr).status = .InvalidConfig ∧
     (Verify.verify_contract cfg ts ms (.error e1) pr).details.actual_hash = none ∧
     (Verify.verify_contract cfg ts ms (.error e1) pr).details.error_message.isSome = true) ∧
    ((Verify.verify_contract cfg ts ms (.ok c) (.error e2)).status = .CompilationFailed ∧
     (Verify.verify_contract cfg ts ms (.ok c) (.error e2)).details.actual_hash = none ∧
     (Verify.verify_contract cfg ts ms (.ok c) (.error e2)).details.error_message.isSome
       = true) ∧
    ((Verify.verify_contract cfg ts ms (.ok c) (.ok out)).status =
       (if Verify.normalize_hash cfg.deployed_bytecode_hash =
           Verify.normalize_hash (Verify.calculate_bytecode_hash out.rwasm)
        then .Success else .BytecodeMismatch) ∧
     (Verify.verify_contract cfg ts ms (.ok c) (.ok out)).details.expected_hash =
       Verify.normalize_hash cfg.deployed_bytecode_hash ∧
     (Verify.verify_contract cfg ts ms (.ok c) (.ok out)).details.actual_hash =
       some (Verify.normalize_hash (Verify.calculate_bytecode_hash out.rwasm)) ∧
     (Verify.verify_contract cfg ts ms (.ok c) (.ok out)).details.error_message.isSome =
       (if Verify.normalize_hash cfg.deployed_bytecode_hash =
           Verify.normalize_hash (Verify.calculate_bytecode_hash out.rwasm)
        then false else true)) := by
  refine ⟨⟨rfl, rfl, rfl⟩, ⟨rfl, rfl, rfl⟩, ?_, ?_, ?_, ?_⟩ <;>
  · by_cases h : Verify.normalize_hash cfg.deployed_bytecode_hash =
        Verify.normalize_hash (Verify.calculate_bytecode_hash out.rwasm)
    · simp [Verify.verify_contract, h]
    · simp [Verify.verify_contract, h]

/-- Claim C6 counterexample: on the `InvalidConfig` outcome the result records
NO wall-clock duration — `compilation_duration_ms` is `None` — so the claim
that every outcome records both a duration and a timestamp fails. -/
theorem c6_invalid_config_has_no_duration :
    (Verify.verify_contract Fixtures.cfgMissing 1700000000 250
      (.error "No Cargo.toml") (.error "unused")).status = .InvalidConfig ∧
    (Verify.verify_contract Fixtures.cfgMissing 1700000000 250
      (.error "No Cargo.toml") (.error "unused")).details.compilation_duration_ms = none ∧
    (Verify.verify_contract Fixtures.cfgMissing 1700000000 250
      (.error "No Cargo.toml") (.error "unused")).details.timestamp = 1700000000 :=
  ⟨rfl, rfl, rfl⟩

/-- Claim C6 (amended): every outcome records the timestamp; the wall-clock
duration is recorded on every outcome except `InvalidConfig`, where
`compilation_duration_ms` is left `None`. -/
theorem c6_duration_and_timestamp (cfg : Verify.VerifyConfig) (ts ms : Nat)
    (cr : Except String Config.CompileConfig) (pr : Except String Verify.CompileOk) :
    (Verify.verify_contract cfg ts ms cr pr).details.timestamp = ts ∧
    (Verify.verify_contract cfg ts ms cr pr).details.compilation_duration_ms =
      (if (Verify.verify_contract cfg ts ms cr pr).status = .InvalidConfig
       then none else some ms) := by
  cases cr with
  | error e => exact ⟨rfl, rfl⟩
  | ok c =>
    cases pr with
    | error e => exact ⟨rfl, by simp [Verify.verify_contract]⟩
    | ok out =>
      refine ⟨rfl, ?_⟩
      by_cases h : Verify.normalize_hash cfg.deployed_bytecode_hash =
          Verify.normalize_hash (Verify.calculate_bytecode_hash out.rwasm)
      · simp [Verify.verify_contract, h]
      · simp [Verify.verify_contract, h]

/-- Claim C7: function selectors are the hex of the first 4 Keccak-256 bytes
of the canonical signature (name, comma-joined parameter types, no spaces);
for `transfer(address,uint256)` the derived selector is `a9059cbb`
(`extract_method_identifiers`), stored `0x`-prefixed by the
`extract_function_selectors` variant. -/
theorem c7_selector_derivation :
    Artifacts.Metadata.extract_method_identifiers [Fixtures.transferEntry] =
      [("transfer(address,uint256)", "a9059cbb")] ∧
    Artifacts.extract_function_selectors [Fixtures.transferEntry] =
      [("transfer(address,uint256)", "0xa9059cbb")] := by
  constructor
  · decide
  · decide

/-- Claim C8 counterexample: a parameter whose type is the fixed-size array
`uint256[3]` is an array parameter, yet `get_data_location` returns no
location and the parameter renders as `uint256[3] a` with neither `memory`
nor `calldata` — refuting the claim that every array-typed parameter gets a
reference-location qualifier. -/
theorem c8_fixed_size_array_param_unqualified :
    Artifacts.Interface.format_parameter Fixtures.fixedArrayParam = "uint256[3] a" ∧
    Artifacts.Interface.get_data_location "uint256[3]" (some "uint256[3]") = none ∧
    Artifacts.Interface.format_parameter Fixtures.fixedArrayParam ≠ "uint256[3] memory a" ∧
    Artifacts.Interface.format_parameter Fixtures.fixedArrayParam ≠ "uint256[3] calldata a" := by
  refine ⟨?_, ?_, ?_, ?_⟩ <;> decide

/-- Claim C8 (amended): interface generation de-duplicates struct
declarations by name — over any ABI each struct name is declared at most
once, and in the scenario where the same named struct is a parameter of two
functions exactly one declaration is emitted; a parameter gets a
memory/calldata qualifier exactly when its internal type is struct-tagged,
its type is `string` or `bytes`, its type is a `[]`-suffixed dynamic array,
or it is a parenthesised tuple (fixed-size arrays and bare tuples get none);
the struct-typed parameter itself renders with the `memory` qualifier. -/
theorem c8_struct_dedup_and_qualifier_rule :
    (∀ abi : List Artifacts.AbiEntry,
      ((Artifacts.Interface.collect_abi_structs abi).2.map Prod.fst).Nodup) ∧
    (∀ (ty : String) (it : Option String),
      (Artifacts.Interface.get_data_location ty it).isSome =
        ((match it with | some t => Str.startsWith t "struct " | none => false) ||
         (ty == "string" || ty == "bytes") || Str.endsWith ty "[]" ||
         (Str.startsWith ty "(" && Str.endsWith ty ")"))) ∧
    (Artifacts.Interface.collect_abi_structs Fixtures.sharedStructAbi).2.map Prod.fst
      = ["Point"] ∧
    Artifacts.Interface.format_parameter Fixtures.pointParam = "Point memory p" ∧
    Artifacts.Interface.format_function Fixtures.fnUsePointA =
      "function setA(Point memory p) external;" := by
  refine ⟨Artifacts.Interface.collect_abi_structs_nodup,
    Artifacts.Interface.get_data_location_isSome, ?_, ?_, ?_⟩ <;> decide

/-- Claim C9 counterexample: two routers, each with one convertible method —
two parsed methods in the input — yield an ABI with a single descriptor,
because `generate` reads only the first router. -/
theorem c9_second_router_methods_dropped :
    Fixtures.router1.available_methods.length +
      Fixtures.router2.available_methods.length = 2 ∧
    ((Artifacts.Abi.generate [Fixtures.router1, Fixtures.router2]).toOption.getD []).length
      = 1 :=
  ⟨rfl, rfl⟩

/-- Claim C9 (amended): an empty router list yields `Ok` with an empty ABI,
and a non-empty list yields `Ok` with one descriptor per successfully
converted method of the FIRST router, in order; methods of later routers and
methods whose conversion fails are skipped. -/
theorem c9_abi_from_first_router (r : Artifacts.Abi.Router)
    (rs : List Artifacts.Abi.Router) :
    Artifacts.Abi.generate [] = .ok [] ∧
    Artifacts.Abi.generate (r :: rs) =
      .ok (Artifacts.Abi.convertedMethods r.available_methods) := by
  refine ⟨rfl, ?_⟩
  simp [Artifacts.Abi.generate, Artifacts.Abi.pushConverted_foldl]

/-- Claim C10: `normalize_hash` strips the `0x` prefix of the trimmed input
and lowercases the remainder, but when the trimmed input does not start with
`0x` the `unwrap_or` falls back to the ORIGINAL string, so surrounding
whitespace is retained in the lowercased result. -/
theorem c10_normalize_hash_behavior :
    (∀ s : String, Verify.normalize_hash s =
      if Str.startsWith (Str.trim s) "0x" then Str.toLower ((Str.trim s).drop 2)
      else Str.toLower s) ∧
    Verify.normalize_hash "  0xABCdef " = "abcdef" ∧
    Verify.normalize_hash "  abcdef " = "  abcdef " ∧
    Verify.normalize_hash "  ABCdef " = "  abcdef " :=
  ⟨fun _ => rfl, by decide, by decide, by decide⟩

end FluentBuilder
